import Mathlib

/-!
Verification of the country-currency refresh pipeline (`main.py`).

The embedding models the service's pure data flow:

* floating-point rates and derived metrics are modelled as rationals (`ℚ`);
* `random.uniform(1000, 2000)` is modelled by passing the drawn multiplier
  explicitly (`uniform a b r` with `0 ≤ r < 1` is the textbook formula
  `a + (b - a) * r` used by the Python library);
* timestamps are abstract instants (`Nat`);
* the MongoDB collection is a list of documents, `update_one`-with-upsert is
  "replace first match, else append";
* each outbound HTTP call is represented by its outcome (parsed body or a
  transport failure), since the network itself is outside the program.
-/

namespace CountryApi

/-- A currency descriptor from the countries source: a dict whose `code`
field may be absent. -/
structure RawCurrency where
  code : Option String
deriving DecidableEq, Repr

/-- A raw country payload element from the countries source; every field may
be absent, mirroring `dict.get`. -/
structure RawCountry where
  name : Option String
  capital : Option String
  region : Option String
  population : Option Nat
  currencies : Option (List RawCurrency)
  flag : Option String
deriving DecidableEq, Repr

/-- The stored country document, with exactly the fields `refresh_countries`
writes.  `estimated_gdp` is `Option ℚ`: the Python code stores either the
int `0`, a float, or `None`. -/
structure Doc where
  name : Option String
  capital : Option String
  region : Option String
  population : Nat
  currency_code : Option String
  exchange_rate : Option ℚ
  estimated_gdp : Option ℚ
  flag_url : Option String
  last_refreshed_at : Nat
deriving DecidableEq, Repr

/-- The exchange-rate table: a finite mapping from currency code to rate. -/
abbrev Rates := List (String × ℚ)

/-- Membership/lookup in the rate mapping (`currency_code in exchange_rates`
followed by `exchange_rates[currency_code]`). -/
def lookupRate (rates : Rates) (code : String) : Option ℚ :=
  (rates.find? (fun p => p.1 == code)).map Prod.snd

/-- The formula of `random.uniform a b`: `a + (b - a) * r` for a draw
`r ∈ [0, 1)` of `random.random()`. -/
def uniform (a b r : ℚ) : ℚ := a + (b - a) * r

/-- Direct translation of `calculate_estimated_gdp`: `None` when the rate is
missing or exactly zero, otherwise `population * u / rate` where `u` is the
randomly drawn multiplier. -/
def calculate_estimated_gdp (population : Nat) (exchange_rate : Option ℚ)
    (u : ℚ) : Option ℚ :=
  match exchange_rate with
  | none => none
  | some r => if r = 0 then none else some ((population * u) / r)

/-- The per-country currency merge inside the refresh loop: starting from
`currency_code = None`, `exchange_rate = None`, `estimated_gdp = 0`, it takes
the first currency's code and, when that code is truthy (non-`None`,
non-empty — Python `if currency_code`) and present in the mapping, fills in
the rate and the derived GDP.  Returns
`(currency_code, exchange_rate, estimated_gdp)`. -/
def mergeCurrency (rates : Rates) (pop : Nat) (u : ℚ) :
    List RawCurrency → Option String × Option ℚ × Option ℚ
  | [] => (none, none, some 0)
  | cur :: _ =>
    match cur.code with
    | none => (none, none, some 0)
    | some s =>
      if s = "" then (some s, none, some 0)
      else
        match lookupRate rates s with
        | none => (some s, none, some 0)
        | some r => (some s, some r, calculate_estimated_gdp pop (some r) u)

/-- One iteration of the refresh loop body (minus the store write): build the
`country_doc` for one raw country, with `dict.get` defaults (`population` 0,
`currencies` empty, other fields carried over as optional). -/
def processCountry (rates : Rates) (ts : Nat) (u : ℚ) (c : RawCountry) : Doc :=
  let merged := mergeCurrency rates (c.population.getD 0) u (c.currencies.getD [])
  { name := c.name
    capital := c.capital
    region := c.region
    population := c.population.getD 0
    currency_code := merged.1
    exchange_rate := merged.2.1
    estimated_gdp := merged.2.2
    flag_url := c.flag
    last_refreshed_at := ts }

/-- Modelled from the spec: the store's `$regex`/`$options: "i"` matcher is
MongoDB's PCRE engine, which is external to this repository.  The spec
describes it as an anchored case-insensitive pattern match in which
metacharacters keep their regex meaning.  We embed the fragment in which the
only metacharacter appearing in the pattern is the dot wildcard (which
matches any single character); every other character matches itself up to
case folding.  The `^`/`$` anchors the code adds around the pattern are
represented by requiring the whole subject to be consumed. -/
def reMatch : List Char → List Char → Bool
  | [], [] => true
  | [], _ :: _ => false
  | _ :: _, [] => false
  | p :: ps, c :: cs =>
    if p = '.' then reMatch ps cs
    else (p.toLower == c.toLower) && reMatch ps cs

/-- The PCRE metacharacters; a pattern avoiding all of these is matched
purely literally (up to case). -/
def regexMetachars : List Char :=
  ['.', '*', '+', '?', '(', ')', '[', ']', '|', '^', '$', '\\', '\x7b', '\x7d']

/-- A string free of regex metacharacters. -/
def noMetachars (s : String) : Bool :=
  s.data.all (fun c => !(regexMetachars.contains c))

/-- Case-insensitive exact string comparison (the comparison the spec says
the lookups implement). -/
def ciEq (a b : String) : Bool :=
  a.data.map Char.toLower == b.data.map Char.toLower

/-- Python renders `None` into an f-string as the text `None`; the upsert
filter pattern is built with an f-string from `country_data.get('name')`. -/
def renderPattern : Option String → String
  | none => "None"
  | some s => s

/-- A `$regex`/`i` condition applied to an optional stored field: a missing
(null) field never matches. -/
def fieldRegexMatch (pat : String) : Option String → Bool
  | none => false
  | some v => reMatch pat.data v.data

/-- The persistent state the pipeline touches: the countries collection and
the `metadata` singleton's `last_refreshed_at`. -/
structure Store where
  countries : List Doc
  marker : Option Nat
deriving DecidableEq, Repr

/-- `update_one(filter, set, upsert=True)`: replace the first matching
document, or append when nothing matches. -/
def upsertFirst (p : Doc → Bool) (doc : Doc) : List Doc → List Doc
  | [] => [doc]
  | d :: ds => if p d then doc :: ds else d :: upsertFirst p doc ds

/-- The error taxonomy the endpoints surface, with the provider carried on
upstream failures. -/
inductive ApiError where
  | upstream (provider : String) (cause : String)
  | notFound (message : String)
  | internal (cause : String)
deriving DecidableEq, Repr

/-- The contractual HTTP status for each error class. -/
def ApiError.statusCode : ApiError → Nat
  | .upstream _ _ => 503
  | .notFound _ => 404
  | .internal _ => 500

/-- The outcome of one outbound HTTP call: a parsed body, or an
`httpx.HTTPError` with its message. -/
inductive HttpOutcome (α : Type) where
  | success (body : α)
  | failure (cause : String)
deriving DecidableEq

/-- The rates-source envelope: the `rates` field may be absent from the
parsed JSON. -/
structure RatesPayload where
  rates : Option Rates
deriving DecidableEq

/-- `fetch_countries_data`: a transport failure becomes the 503 upstream
error naming restcountries.com. -/
def fetch_countries_data (resp : HttpOutcome (List RawCountry)) :
    Except ApiError (List RawCountry) :=
  match resp with
  | .success body => .ok body
  | .failure cause => .error (.upstream "restcountries.com" cause)

/-- `fetch_exchange_rates`: a transport failure becomes the 503 upstream
error naming open.er-api.com; on success the envelope's `rates` field is
extracted with `data.get("rates", \x7b\x7d)`, i.e. a missing field yields
the empty mapping. -/
def fetch_exchange_rates (resp : HttpOutcome RatesPayload) :
    Except ApiError Rates :=
  match resp with
  | .success data => .ok (data.rates.getD [])
  | .failure cause => .error (.upstream "open.er-api.com" cause)

/-- The success payload of `POST /countries/refresh`. -/
structure RefreshSuccess where
  total_countries : Nat
  timestamp : Nat
deriving DecidableEq, Repr

/-- One store write of the refresh loop: upsert keyed by the case-insensitive
regex match on the raw country's name. -/
def upsertCountry (c : RawCountry) (doc : Doc) (docs : List Doc) : List Doc :=
  upsertFirst (fun d => fieldRegexMatch (renderPattern c.name) d.name) doc docs

/-- `refresh_countries`: fetch both sources (both before any store
mutation), capture one timestamp, process and upsert every country in input
order, update the metadata marker, and return the summary.  `draw i` is the
multiplier drawn by `random.uniform(1000, 2000)` for the `i`-th country. -/
def refresh_countries (countriesResp : HttpOutcome (List RawCountry))
    (ratesResp : HttpOutcome RatesPayload) (now : Nat) (draw : Nat → ℚ)
    (store : Store) : Except ApiError RefreshSuccess × Store :=
  match fetch_countries_data countriesResp with
  | .error e => (.error e, store)
  | .ok countries_data =>
    match fetch_exchange_rates ratesResp with
    | .error e => (.error e, store)
    | .ok exchange_rates =>
      let refresh_timestamp := now
      let processed := countries_data.enum.map
        (fun ic => processCountry exchange_rates refresh_timestamp (draw ic.1) ic.2)
      let newCountries := countries_data.enum.foldl
        (fun acc ic =>
          upsertCountry ic.2
            (processCountry exchange_rates refresh_timestamp (draw ic.1) ic.2) acc)
        store.countries
      (.ok ⟨processed.length, refresh_timestamp⟩,
        ⟨newCountries, some refresh_timestamp⟩)

/-- The sort key used for the summary image top-5:
`x.get('estimated_gdp', 0)` (after the not-None filter this default never
fires, but it is kept faithfully). -/
def summaryKey (d : Doc) : ℚ := d.estimated_gdp.getD 0

/-- The before-or-equal relation of Python's stable descending sort on
enumerated documents: strictly larger GDP first, ties broken by original
position. -/
def summaryLE (p q : Nat × Doc) : Prop :=
  summaryKey q.2 < summaryKey p.2 ∨
    (summaryKey p.2 = summaryKey q.2 ∧ p.1 ≤ q.1)

instance decSummaryLE : DecidableRel summaryLE := fun p q =>
  decidable_of_iff
    (summaryKey q.2 < summaryKey p.2 ∨
      (summaryKey p.2 = summaryKey q.2 ∧ p.1 ≤ q.1)) Iff.rfl

/-- The top-5 selection of `generate_summary_image`: keep the documents
whose `estimated_gdp` is not `None`, sort them descending by GDP with
Python's stable `sorted` (modelled by sorting position-tagged documents by
`summaryLE`, a linear order on distinct positions), and take the first
five. -/
def summaryTop5 (countries : List Doc) : List (Nat × Doc) :=
  (List.insertionSort summaryLE
    (countries.enum.filter (fun p => p.2.estimated_gdp.isSome))).take 5

/-- Python truthiness of an optional string query parameter: `None` and the
empty string are falsy. -/
def truthy : Option String → Bool
  | none => false
  | some s => s != ""

/-- The find filter `get_countries` builds: a `$regex`/`i` clause per truthy
query parameter. -/
def docFilter (region currency : Option String) (d : Doc) : Bool :=
  (if truthy region then fieldRegexMatch (region.getD "") d.region else true) &&
  (if truthy currency then fieldRegexMatch (currency.getD "") d.currency_code
   else true)

/-- MongoDB ascending comparison on a possibly-null numeric field: null
sorts below every number. -/
def bsonLE : Option ℚ → Option ℚ → Bool
  | none, _ => true
  | some _, none => false
  | some x, some y => decide (x ≤ y)

/-- The recognized sort keys of `get_countries` and the field/direction each
maps to; every other value yields no sort criteria. -/
def sortCriteria : String → Option ((Doc → Option ℚ) × Bool)
  | "gdp_desc" => some ((fun d => d.estimated_gdp), true)
  | "gdp_asc" => some ((fun d => d.estimated_gdp), false)
  | "population_desc" => some ((fun d => some (d.population : ℚ)), true)
  | "population_asc" => some ((fun d => some (d.population : ℚ)), false)
  | _ => none

/-- `cursor.sort(criteria)` when criteria are present; the store-native
order otherwise. -/
def applySort (crit : Option ((Doc → Option ℚ) × Bool)) (docs : List Doc) :
    List Doc :=
  match crit with
  | none => docs
  | some fd =>
    List.insertionSort
      (fun a b =>
        if fd.2 then bsonLE (fd.1 b) (fd.1 a) = true
        else bsonLE (fd.1 a) (fd.1 b) = true) docs

/-- `GET /countries`: filter by the truthy query parameters, then sort only
when the `sort` value is one of the four recognized keys. -/
def get_countries (store : Store) (region currency sortQ : Option String) :
    List Doc :=
  applySort (sortQ.bind sortCriteria)
    (store.countries.filter (docFilter region currency))

/-- `GET /countries/name`: `find_one` with the case-insensitive regex
filter; no match is the distinct 404. -/
def get_country (store : Store) (name : String) : Except ApiError Doc :=
  match store.countries.find? (fun d => fieldRegexMatch name d.name) with
  | some d => .ok d
  | none => .error (.notFound "Country not found")

/-- Case-insensitive exact comparison against an optional stored field (the
comparison the spec intends for lookups and filters); a missing field never
matches. -/
def ciFieldMatch (pat : String) : Option String → Bool
  | none => false
  | some v => ciEq pat v

/-- Strictly-before in the stable descending GDP order: strictly larger key,
or equal key and strictly earlier original position. -/
def strictBefore (q p : Nat × Doc) : Prop :=
  summaryKey p.2 < summaryKey q.2 ∨
    (summaryKey q.2 = summaryKey p.2 ∧ q.1 < p.1)

instance decStrictBefore : ∀ q p, Decidable (strictBefore q p) := fun q p =>
  decidable_of_iff
    (summaryKey p.2 < summaryKey q.2 ∨
      (summaryKey q.2 = summaryKey p.2 ∧ q.1 < p.1)) Iff.rfl

end CountryApi

namespace CountryApi

/-! ## Helper lemmas about the store writes -/

/-- Every document in an upserted collection is the upserted document or one
of the previous documents. -/
theorem mem_upsertFirst (p : Doc → Bool) (x d : Doc) :
    ∀ l : List Doc, d ∈ upsertFirst p x l → d = x ∨ d ∈ l
  | [], h => by simpa [upsertFirst] using h
  | a :: l, h => by
    simp only [upsertFirst] at h
    split at h
    · rcases List.mem_cons.1 h with rfl | h
      · exact Or.inl rfl
      · exact Or.inr (List.mem_cons_of_mem _ h)
    · rcases List.mem_cons.1 h with rfl | h
      · exact Or.inr (List.mem_cons_self _ _)
      · rcases mem_upsertFirst p x d l h with h' | h'
        · exact Or.inl h'
        · exact Or.inr (List.mem_cons_of_mem _ h')

/-- Every document in the collection after the refresh upsert loop is either
a pre-existing document or one produced by `processCountry` in this cycle. -/
theorem mem_refresh_foldl (rates : Rates) (ts : Nat) (draw : Nat → ℚ) :
    ∀ (l : List (Nat × RawCountry)) (init : List Doc) (d : Doc),
      d ∈ l.foldl (fun acc ic =>
        upsertCountry ic.2 (processCountry rates ts (draw ic.1) ic.2) acc) init →
      d ∈ init ∨ ∃ ic : Nat × RawCountry, d = processCountry rates ts (draw ic.1) ic.2
  | [], _, _, h => Or.inl h
  | ic :: l, init, d, h => by
    rcases mem_refresh_foldl rates ts draw l _ d h with h' | h'
    · rcases mem_upsertFirst _ _ _ _ h' with rfl | h''
      · exact Or.inr ⟨ic, rfl⟩
      · exact Or.inl h''
    · exact Or.inr h'

/-- With an empty rate mapping the merge never fills in an exchange rate. -/
theorem mergeCurrency_rate_none_of_no_rates (pop : Nat) (u : ℚ) :
    ∀ l : List RawCurrency, (mergeCurrency [] pop u l).2.1 = none
  | [] => rfl
  | cur :: _ => by
    cases hc : cur.code with
    | none => simp [mergeCurrency, hc]
    | some s => by_cases hs : s = "" <;> simp [mergeCurrency, hc, hs, lookupRate]

/-! ## C1 -/

/-- C1 counterexample: a country whose single currency code is absent from
the rate mapping is stored with `exchange_rate = None` but
`estimated_gdp = 0`, which is present and non-null — refuting the claimed
iff (both fields were claimed to remain empty in this case). -/
theorem C1_counterexample :
    (processCountry [] 7 1500 ⟨some "Testland", none, none, some 5,
      some [⟨some "XYZ"⟩], none⟩).exchange_rate = none ∧
    (processCountry [] 7 1500 ⟨some "Testland", none, none, some 5,
      some [⟨some "XYZ"⟩], none⟩).estimated_gdp = some 0 ∧
    some (0 : ℚ) ≠ none :=
  ⟨rfl, rfl, by simp⟩

/-- C1 (amended): in every record produced by one refresh cycle,
`estimated_gdp` is null iff `exchange_rate` is present and exactly zero;
when the first currency code is unmapped (or there is no usable currency)
`exchange_rate` is null while `estimated_gdp` is the literal zero value. -/
theorem C1_gdp_null_iff_rate_zero (rates : Rates) (ts : Nat) (u : ℚ)
    (c : RawCountry) :
    (processCountry rates ts u c).estimated_gdp = none ↔
      (processCountry rates ts u c).exchange_rate = some 0 := by
  show (mergeCurrency rates (c.population.getD 0) u (c.currencies.getD [])).2.2 = none ↔
    (mergeCurrency rates (c.population.getD 0) u (c.currencies.getD [])).2.1 = some 0
  generalize c.population.getD 0 = pop
  cases c.currencies.getD [] with
  | nil => simp [mergeCurrency]
  | cons cur rest =>
    cases hc : cur.code with
    | none => simp [mergeCurrency, hc]
    | some s =>
      by_cases hs : s = ""
      · simp [mergeCurrency, hc, hs]
      · cases hr : lookupRate rates s with
        | none => simp [mergeCurrency, hc, hs, hr]
        | some r =>
          by_cases hz : r = 0
          · subst hz
            simp [mergeCurrency, hc, hs, hr, calculate_estimated_gdp]
          · simp [mergeCurrency, hc, hs, hr, calculate_estimated_gdp, hz]

/-! ## C2 -/

/-- C2: if either external fetch fails, `refresh` returns the 503
service-unavailable error naming the failing provider and the store (both
the countries collection and the status marker) is returned completely
unmodified, because both fetches precede every store mutation. -/
theorem C2_upstream_failure_no_mutation (store : Store) (now : Nat)
    (draw : Nat → ℚ) (cause : String) (ratesResp : HttpOutcome RatesPayload)
    (cs : List RawCountry) :
    refresh_countries (.failure cause) ratesResp now draw store =
      (.error (.upstream "restcountries.com" cause), store) ∧
    refresh_countries (.success cs) (.failure cause) now draw store =
      (.error (.upstream "open.er-api.com" cause), store) ∧
    (ApiError.upstream "restcountries.com" cause).statusCode = 503 ∧
    (ApiError.upstream "open.er-api.com" cause).statusCode = 503 :=
  ⟨rfl, rfl, rfl, rfl⟩

/-! ## C3 -/

/-- C3 counterexample: a country with population 0 (e.g. population missing)
whose currency maps to the nonzero rate 2 gets `estimated_gdp = 0`, which is
neither strictly positive nor inside the claimed half-open range
`[population*1000/rate, population*2000/rate) = [0, 0)`. -/
theorem C3_counterexample :
    calculate_estimated_gdp 0 (some 2) (uniform 1000 2000 (1 / 2)) = some 0 ∧
    ¬ (0 : ℚ) < 0 ∧
    ¬ (0 : ℚ) < ((0 : Nat) : ℚ) * 2000 / 2 := by
  refine ⟨?_, by norm_num, by norm_num⟩
  norm_num [calculate_estimated_gdp, uniform]

/-- C3 (amended): for strictly positive population and strictly positive
rate, the derived GDP equals `population * U / rate` with
`U = uniform 1000 2000 r` for the underlying draw `r ∈ [0, 1)`; it is
strictly positive and lies in `[population*1000/rate,
population*2000/rate)`. -/
theorem C3_gdp_positive_and_in_range (population : Nat) (rate r : ℚ)
    (hpop : 0 < population) (hrate : 0 < rate) (hr0 : 0 ≤ r) (hr1 : r < 1) :
    ∃ g, calculate_estimated_gdp population (some rate)
        (uniform 1000 2000 r) = some g ∧
      0 < g ∧ (population : ℚ) * 1000 / rate ≤ g ∧
      g < (population : ℚ) * 2000 / rate := by
  have hp : (0 : ℚ) < population := by exact_mod_cast hpop
  have hu1 : (1000 : ℚ) ≤ uniform 1000 2000 r := by unfold uniform; nlinarith
  have hu2 : uniform 1000 2000 r < 2000 := by unfold uniform; nlinarith
  refine ⟨(population : ℚ) * uniform 1000 2000 r / rate, ?_, ?_, ?_, ?_⟩
  · simp [calculate_estimated_gdp, hrate.ne']
  · exact div_pos (mul_pos hp (by linarith)) hrate
  · rw [div_le_div_iff₀ hrate hrate]
    have h1 : (population : ℚ) * 1000 ≤ population * uniform 1000 2000 r :=
      mul_le_mul_of_nonneg_left hu1 hp.le
    have h2 := mul_le_mul_of_nonneg_right h1 hrate.le
    linarith
  · rw [div_lt_div_iff₀ hrate hrate]
    have h1 : (population : ℚ) * uniform 1000 2000 r < population * 2000 :=
      mul_lt_mul_of_pos_left hu2 hp
    have h2 := mul_lt_mul_of_pos_right h1 hrate
    linarith

/-- C3 witness: population 1, rate 2, draw 1/2. -/
theorem C3_witness :
    ∃ g, calculate_estimated_gdp 1 (some 2) (uniform 1000 2000 (1 / 2)) = some g ∧
      0 < g ∧ ((1 : Nat) : ℚ) * 1000 / 2 ≤ g ∧
      g < ((1 : Nat) : ℚ) * 2000 / 2 :=
  C3_gdp_positive_and_in_range 1 2 (1 / 2) (by norm_num) (by norm_num)
    (by norm_num) (by norm_num)

/-! ## C5 -/

/-- C5: the per-country merge step is a total function that tolerates every
absent field: missing population becomes 0, a missing currency list leaves
`currency_code`/`exchange_rate` empty (with the zero GDP), and missing
capital/region/flag are carried through as empty optional fields. -/
theorem C5_merge_tolerates_missing_fields (rates : Rates) (ts : Nat) (u : ℚ)
    (c : RawCountry) :
    (c.population = none → (processCountry rates ts u c).population = 0) ∧
    (c.currencies = none →
      (processCountry rates ts u c).currency_code = none ∧
      (processCountry rates ts u c).exchange_rate = none ∧
      (processCountry rates ts u c).estimated_gdp = some 0) ∧
    (processCountry rates ts u c).capital = c.capital ∧
    (processCountry rates ts u c).region = c.region ∧
    (processCountry rates ts u c).flag_url = c.flag ∧
    (processCountry rates ts u c).name = c.name := by
  refine ⟨fun h => ?_, fun h => ?_, rfl, rfl, rfl, rfl⟩
  · simp [processCountry, h]
  · simp [processCountry, h, mergeCurrency]

/-- C5 witness: the fully-absent raw record is processed without failure
into the all-empty document. -/
theorem C5_witness :
    (processCountry [] 0 1500 ⟨none, none, none, none, none, none⟩).population = 0 ∧
    (processCountry [] 0 1500 ⟨none, none, none, none, none, none⟩).currency_code = none ∧
    (processCountry [] 0 1500 ⟨none, none, none, none, none, none⟩).exchange_rate = none ∧
    (processCountry [] 0 1500 ⟨none, none, none, none, none, none⟩).estimated_gdp = some 0 := by
  obtain ⟨h1, h2, -⟩ :=
    C5_merge_tolerates_missing_fields [] 0 1500 ⟨none, none, none, none, none, none⟩
  exact ⟨h1 rfl, (h2 rfl).1, (h2 rfl).2.1, (h2 rfl).2.2⟩

/-! ## C8 -/

/-- C8: when the rates-source response parses but has no `rates` field, the
fetch succeeds with the empty mapping and the refresh proceeds: it returns
success, and every document it wrote is unmapped (`exchange_rate = None`). -/
theorem C8_missing_rates_field_empty_mapping (store : Store) (now : Nat)
    (draw : Nat → ℚ) (cs : List RawCountry) :
    fetch_exchange_rates (.success ⟨none⟩) = .ok [] ∧
    (refresh_countries (.success cs) (.success ⟨none⟩) now draw store).1 =
      .ok ⟨cs.length, now⟩ ∧
    ∀ d ∈ (refresh_countries (.success cs) (.success ⟨none⟩) now draw
        store).2.countries,
      d ∈ store.countries ∨ d.exchange_rate = none := by
  refine ⟨rfl, ?_, ?_⟩
  · simp [refresh_countries, fetch_countries_data, fetch_exchange_rates]
  · intro d hd
    rcases mem_refresh_foldl [] now draw cs.enum store.countries d hd with h | ⟨ic, rfl⟩
    · exact Or.inl h
    · exact Or.inr (mergeCurrency_rate_none_of_no_rates _ _ _)

/-- C8 witness: one-country refresh against an envelope with no `rates`
field. -/
theorem C8_witness :
    fetch_exchange_rates (.success ⟨none⟩) = .ok [] ∧
    (refresh_countries (.success [⟨some "Testland", none, none, some 1000000,
        some [⟨some "TST"⟩], none⟩]) (.success ⟨none⟩) 5 (fun _ => 1500)
        ⟨[], none⟩).1 = .ok ⟨1, 5⟩ ∧
    ∀ d ∈ (refresh_countries (.success [⟨some "Testland", none, none,
        some 1000000, some [⟨some "TST"⟩], none⟩]) (.success ⟨none⟩) 5
        (fun _ => 1500) ⟨[], none⟩).2.countries,
      d ∈ (⟨[], none⟩ : Store).countries ∨ d.exchange_rate = none :=
  C8_missing_rates_field_empty_mapping ⟨[], none⟩ 5 (fun _ => 1500)
    [⟨some "Testland", none, none, some 1000000, some [⟨some "TST"⟩], none⟩]

/-! ## C10 -/

/-- C10: passing the empty string for the region or currency query
parameter applies no filter at all — the listing is identical to the
unfiltered listing (for any sort parameter). -/
theorem C10_empty_string_filters_ignored (store : Store)
    (sortQ : Option String) :
    get_countries store (some "") (some "") sortQ =
      get_countries store none none sortQ :=
  rfl

end CountryApi

namespace CountryApi

/-! ## C4 -/

/-- C4: one refresh cycle uses a single timestamp throughout — it appears as
`last_refreshed_at` in every country record the cycle wrote, as the global
status marker's value, and as the timestamp of the returned success result;
no two records written by the cycle can carry different timestamps. -/
theorem C4_single_shared_timestamp (cs : List RawCountry) (rp : RatesPayload)
    (now : Nat) (draw : Nat → ℚ) (store : Store) :
    (refresh_countries (.success cs) (.success rp) now draw store).1 =
      .ok ⟨cs.length, now⟩ ∧
    (refresh_countries (.success cs) (.success rp) now draw store).2.marker =
      some now ∧
    ∀ d ∈ (refresh_countries (.success cs) (.success rp) now draw
        store).2.countries,
      d ∈ store.countries ∨ d.last_refreshed_at = now := by
  refine ⟨?_, rfl, ?_⟩
  · simp [refresh_countries, fetch_countries_data, fetch_exchange_rates]
  · intro d hd
    rcases mem_refresh_foldl (rp.rates.getD []) now draw cs.enum
        store.countries d hd with h | ⟨ic, rfl⟩
    · exact Or.inl h
    · exact Or.inr rfl

/-- C4 witness: a one-country refresh over the empty store at instant 5. -/
theorem C4_witness :
    (refresh_countries (.success [⟨some "Testland", none, none, some 1000000,
        some [⟨some "TST"⟩], none⟩]) (.success ⟨some [("TST", 2)]⟩) 5
        (fun _ => 1500) ⟨[], none⟩).1 = .ok ⟨1, 5⟩ ∧
    (refresh_countries (.success [⟨some "Testland", none, none, some 1000000,
        some [⟨some "TST"⟩], none⟩]) (.success ⟨some [("TST", 2)]⟩) 5
        (fun _ => 1500) ⟨[], none⟩).2.marker = some 5 ∧
    ∀ d ∈ (refresh_countries (.success [⟨some "Testland", none, none,
        some 1000000, some [⟨some "TST"⟩], none⟩])
        (.success ⟨some [("TST", 2)]⟩) 5 (fun _ => 1500) ⟨[], none⟩).2.countries,
      d ∈ (⟨[], none⟩ : Store).countries ∨ d.last_refreshed_at = 5 :=
  C4_single_shared_timestamp
    [⟨some "Testland", none, none, some 1000000, some [⟨some "TST"⟩], none⟩]
    ⟨some [("TST", 2)]⟩ 5 (fun _ => 1500) ⟨[], none⟩

end CountryApi

namespace CountryApi

/-! ## Regex-free patterns match literally -/

/-- A pattern free of regex metacharacters matches a subject exactly when
the two are equal after case folding. -/
theorem reMatch_eq_of_noMetachars :
    ∀ ps cs : List Char, (∀ c ∈ ps, regexMetachars.contains c = false) →
      (reMatch ps cs = true ↔ ps.map Char.toLower = cs.map Char.toLower)
  | [], [], _ => by simp [reMatch]
  | [], _ :: _, _ => by simp [reMatch]
  | _ :: _, [], _ => by simp [reMatch]
  | p :: ps, c :: cs, h => by
    have hp : ¬ p = '.' := by
      intro hp
      have hmem := h p (List.mem_cons_self _ _)
      rw [hp] at hmem
      simp [regexMetachars] at hmem
    have ih := reMatch_eq_of_noMetachars ps cs
      (fun x hx => h x (List.mem_cons_of_mem _ hx))
    simp only [reMatch, if_neg hp, Bool.and_eq_true, beq_iff_eq,
      List.map_cons, List.cons.injEq]
    exact and_congr_right fun _ => ih

/-- For a metacharacter-free pattern the `$regex`/`i` condition on an
optional field coincides with case-insensitive exact equality. -/
theorem fieldRegexMatch_eq_ciFieldMatch (pat : String)
    (h : noMetachars pat = true) (v : Option String) :
    fieldRegexMatch pat v = ciFieldMatch pat v := by
  have h' : ∀ c ∈ pat.data, regexMetachars.contains c = false := by
    intro c hc
    have := List.all_eq_true.1 h c hc
    simpa using this
  cases v with
  | none => rfl
  | some s =>
    show reMatch pat.data s.data = ciEq pat s
    rw [Bool.eq_iff_iff, reMatch_eq_of_noMetachars _ _ h']
    simp [ciEq]

/-! ## C6 -/

/-- C6 counterexample: the requested name `.` (a regex metacharacter)
returns the stored record named `A` even though `.` and `A` are not equal
under case-insensitive comparison — refuting the claim for arbitrary name
strings. -/
theorem C6_counterexample :
    get_country ⟨[⟨some "A", none, none, 3, none, none, some 0, none, 0⟩],
        none⟩ "." =
      .ok ⟨some "A", none, none, 3, none, none, some 0, none, 0⟩ ∧
    ciEq "." "A" = false :=
  ⟨rfl, by decide⟩

/-- C6 (amended): for requested names free of regex metacharacters,
get-by-name returns the first stored record whose name equals the request
case-insensitively, and returns the distinct not-found error exactly when no
stored name matches case-insensitively. -/
theorem C6_get_by_name_ci_exact (store : Store) (name : String)
    (h : noMetachars name = true) :
    (get_country store name =
      match store.countries.find? (fun d => ciFieldMatch name d.name) with
      | some d => Except.ok d
      | none => Except.error (ApiError.notFound "Country not found")) ∧
    (get_country store name = .error (.notFound "Country not found") ↔
      ∀ d ∈ store.countries, ciFieldMatch name d.name = false) := by
  have hfun : (fun d : Doc => fieldRegexMatch name d.name) =
      (fun d : Doc => ciFieldMatch name d.name) :=
    funext fun d => fieldRegexMatch_eq_ciFieldMatch name h d.name
  refine ⟨by unfold get_country; rw [hfun], ?_⟩
  unfold get_country
  rw [hfun]
  cases hf : store.countries.find? (fun d => ciFieldMatch name d.name) with
  | some d =>
    have h1 := List.find?_some hf
    have h2 := List.mem_of_find?_eq_some hf
    constructor
    · intro hc
      exact absurd hc (by simp)
    · intro hall
      exact absurd h1 (by simp [hall d h2])
  | none =>
    constructor
    · intro _ d hd
      have := List.find?_eq_none.1 hf d hd
      simpa using this
    · intro _
      rfl

/-- C6 witness: stored name `Kenya`, requested name `KENYA`. -/
theorem C6_witness :
    (get_country ⟨[⟨some "Kenya", none, none, 3, none, none, some 0, none, 0⟩],
        none⟩ "KENYA" =
      match (⟨[⟨some "Kenya", none, none, 3, none, none, some 0, none, 0⟩],
          none⟩ : Store).countries.find?
          (fun d => ciFieldMatch "KENYA" d.name) with
      | some d => Except.ok d
      | none => Except.error (ApiError.notFound "Country not found")) ∧
    (get_country ⟨[⟨some "Kenya", none, none, 3, none, none, some 0, none, 0⟩],
        none⟩ "KENYA" = .error (.notFound "Country not found") ↔
      ∀ d ∈ (⟨[⟨some "Kenya", none, none, 3, none, none, some 0, none, 0⟩],
          none⟩ : Store).countries, ciFieldMatch "KENYA" d.name = false) :=
  C6_get_by_name_ci_exact
    ⟨[⟨some "Kenya", none, none, 3, none, none, some 0, none, 0⟩], none⟩
    "KENYA" (by decide)

/-! ## C7 -/

/-- C7 counterexample: the region filter `.` (a regex metacharacter) returns
the stored record with region `Z` although `.` and `Z` are not equal under
case-insensitive comparison, so listing does not return exactly the records
whose region matches the filter case-insensitively. -/
theorem C7_counterexample :
    get_countries ⟨[⟨some "B", none, some "Z", 3, none, none, some 0, none,
        0⟩], none⟩ (some ".") none none =
      [⟨some "B", none, some "Z", 3, none, none, some 0, none, 0⟩] ∧
    ciEq "." "Z" = false :=
  ⟨rfl, by decide⟩

/-- C7 (amended): for a nonempty region filter free of regex metacharacters
and any sort value outside the recognized set, listing returns exactly the
stored records whose region equals the filter case-insensitively, in
store-native order (the unrecognized sort neither filters nor reorders nor
drops records). -/
theorem C7_region_filter_and_unrecognized_sort (store : Store) (f sv : String)
    (hne : f ≠ "") (hm : noMetachars f = true)
    (hsv : sv ∉ ["gdp_desc", "gdp_asc", "population_desc", "population_asc"]) :
    get_countries store (some f) none (some sv) =
      store.countries.filter (fun d => ciFieldMatch f d.region) := by
  have hcrit : sortCriteria sv = none := by
    unfold sortCriteria
    split <;> simp_all
  have hdef : get_countries store (some f) none (some sv) =
      applySort (sortCriteria sv)
        (store.countries.filter (docFilter (some f) none)) := rfl
  rw [hdef, hcrit]
  show store.countries.filter (docFilter (some f) none) = _
  refine List.filter_congr fun d _ => ?_
  show docFilter (some f) none d = ciFieldMatch f d.region
  have ht : truthy (some f) = true := by simp [truthy, hne]
  unfold docFilter
  rw [ht, show truthy none = false from rfl]
  simp only [if_true, Bool.false_eq_true, if_false, Bool.and_true,
    Option.getD_some]
  exact fieldRegexMatch_eq_ciFieldMatch f hm d.region

/-- C7 witness: filter `africa` over regions `Africa` and `Europe` with the
unrecognized sort `banana`. -/
theorem C7_witness :
    get_countries ⟨[⟨some "Kenya", none, some "Africa", 3, none, none, some 0,
        none, 0⟩, ⟨some "France", none, some "Europe", 4, none, none, some 0,
        none, 0⟩], none⟩ (some "africa") none (some "banana") =
      ([⟨some "Kenya", none, some "Africa", 3, none, none, some 0, none, 0⟩,
        ⟨some "France", none, some "Europe", 4, none, none, some 0, none,
        0⟩] : List Doc).filter (fun d => ciFieldMatch "africa" d.region) :=
  C7_region_filter_and_unrecognized_sort
    ⟨[⟨some "Kenya", none, some "Africa", 3, none, none, some 0, none, 0⟩,
      ⟨some "France", none, some "Europe", 4, none, none, some 0, none, 0⟩],
      none⟩ "africa" "banana" (by decide) (by decide) (by decide)

end CountryApi

namespace CountryApi

/-! ## C9: the top-5 selection -/

instance : IsTotal (Nat × Doc) summaryLE := ⟨fun p q => by
  unfold summaryLE
  rcases lt_trichotomy (summaryKey p.2) (summaryKey q.2) with h | h | h
  · exact Or.inr (Or.inl h)
  · rcases Nat.le_total p.1 q.1 with h' | h'
    · exact Or.inl (Or.inr ⟨h, h'⟩)
    · exact Or.inr (Or.inr ⟨h.symm, h'⟩)
  · exact Or.inl (Or.inl h)⟩

instance : IsTrans (Nat × Doc) summaryLE := ⟨fun a b c hab hbc => by
  unfold summaryLE at *
  rcases hab with h1 | ⟨h1, h1'⟩ <;> rcases hbc with h2 | ⟨h2, h2'⟩
  · exact Or.inl (by linarith)
  · exact Or.inl (by linarith)
  · exact Or.inl (by linarith)
  · exact Or.inr ⟨by linarith, Nat.le_trans h1' h2'⟩⟩

/-- Two enumerated entries of the same list with the same index are the same
entry. -/
theorem enum_fst_inj {l : List Doc} {p q : Nat × Doc}
    (hp : p ∈ l.enum) (hq : q ∈ l.enum) (h : p.1 = q.1) : p = q := by
  rcases p with ⟨i, a⟩
  rcases q with ⟨j, b⟩
  obtain rfl : i = j := h
  rw [List.mk_mem_enum_iff_getElem?] at hp hq
  rw [hp] at hq
  injection hq with h'
  subst h'
  rfl

/-- Between distinct enumerated entries, the sort's before-or-equal relation
is strict. -/
theorem strictBefore_of_le_of_ne {l : List Doc} {a p : Nat × Doc}
    (ha : a ∈ l.enum) (hp : p ∈ l.enum) (hle : summaryLE a p) (hne : a ≠ p) :
    strictBefore a p := by
  rcases hle with h | ⟨h, h'⟩
  · exact Or.inl h
  · rcases Nat.lt_or_ge a.1 p.1 with h'' | h''
    · exact Or.inr ⟨h, h''⟩
    · exact absurd (enum_fst_inj ha hp (Nat.le_antisymm h' h'')) hne

theorem not_strictBefore_self (p : Nat × Doc) : ¬ strictBefore p p := by
  rintro (h | ⟨-, h⟩)
  · exact lt_irrefl _ h
  · exact Nat.lt_irrefl _ h

theorem not_strictBefore_of_le {p q : Nat × Doc} (h : summaryLE p q) :
    ¬ strictBefore q p := by
  rintro (h' | ⟨h', h''⟩) <;> rcases h with h0 | ⟨h0, h0'⟩
  · exact absurd h' (lt_asymm h0)
  · linarith
  · linarith
  · omega

/-- Position characterization of the stable descending sort: an eligible
entry lies within the first `k` sorted entries exactly when fewer than `k`
eligible entries come strictly before it (strictly larger GDP, or equal GDP
and earlier input position). -/
theorem mem_take_insertionSort_iff {l : List Doc} {p : Nat × Doc} (k : Nat)
    (hp : p ∈ l.enum) (helig : p.2.estimated_gdp.isSome = true) :
    (p ∈ (List.insertionSort summaryLE
        (l.enum.filter (fun q => q.2.estimated_gdp.isSome))).take k ↔
      (l.enum.filter (fun q => q.2.estimated_gdp.isSome)).countP
        (fun q => decide (strictBefore q p)) < k) := by
  set F := l.enum.filter (fun q => q.2.estimated_gdp.isSome) with hF
  set S := List.insertionSort summaryLE F with hS
  have hFsub : ∀ q ∈ F, q ∈ l.enum := fun q hq => (List.mem_filter.1 hq).1
  have hFp : p ∈ F := List.mem_filter.2 ⟨hp, helig⟩
  have hperm : S.Perm F := List.perm_insertionSort _ _
  have hnodupE : l.enum.Nodup := (List.nodup_enum_map_fst l).of_map
  have hnodupF : F.Nodup := hnodupE.filter _
  have hnodupS : S.Nodup := hperm.nodup_iff.2 hnodupF
  have hsorted : List.Sorted summaryLE S := List.sorted_insertionSort _ _
  have hSp : p ∈ S := hperm.mem_iff.2 hFp
  obtain ⟨A, B, hAB⟩ := List.append_of_mem hSp
  have hpw : List.Pairwise summaryLE (A ++ p :: B) := hAB ▸ hsorted
  have hsplit := List.pairwise_append.1 hpw
  have hApre : ∀ a ∈ A, summaryLE a p :=
    fun a ha => hsplit.2.2 a ha p (List.mem_cons_self _ _)
  have hBpost : ∀ b ∈ B, summaryLE p b :=
    fun b hb => (List.pairwise_cons.1 hsplit.2.1).1 b hb
  have hnodup' : (A ++ p :: B).Nodup := hAB ▸ hnodupS
  have hdisj := List.disjoint_of_nodup_append hnodup'
  have hpA : p ∉ A := fun hpa => hdisj hpa (List.mem_cons_self _ _)
  have hcount : F.countP (fun q => decide (strictBefore q p)) = A.length := by
    rw [← hperm.countP_eq, hAB, List.countP_append]
    have hA : A.countP (fun q => decide (strictBefore q p)) = A.length :=
      List.countP_eq_length.2 fun a ha => by
        have haS : a ∈ S := hAB ▸ List.mem_append.2 (Or.inl ha)
        have haE : a ∈ l.enum := hFsub a (hperm.mem_iff.1 haS)
        exact decide_eq_true (strictBefore_of_le_of_ne haE (hFsub p hFp)
          (hApre a ha) (fun he => hpA (he ▸ ha)))
    have hPB : (p :: B).countP (fun q => decide (strictBefore q p)) = 0 :=
      List.countP_eq_zero.2 fun a ha => by
        rcases List.mem_cons.1 ha with rfl | hb
        · simpa using not_strictBefore_self a
        · simpa using not_strictBefore_of_le (hBpost a hb)
    rw [hA, hPB]
    omega
  rw [hcount, hAB, List.take_append_eq_append_take, List.mem_append]
  constructor
  · rintro (h | h)
    · exact absurd (List.take_subset _ _ h) hpA
    · rcases Nat.eq_zero_or_pos (k - A.length) with h0 | h0
      · rw [h0] at h
        simp at h
      · omega
  · intro hk
    right
    have hpos : k - A.length = (k - A.length - 1) + 1 := by omega
    rw [hpos, List.take_succ_cons]
    exact List.mem_cons_self _ _

/-- C9 counterexample: six stored records all with `estimated_gdp = 0`; for
the sixth, zero records have a larger estimated GDP (so the claim says it
appears in the top-5), it is eligible (non-null), yet it is not among the
five rendered entries. -/
theorem C9_counterexample :
    (List.replicate 6 (⟨some "A", none, none, 3, none, none, some 0, none,
        0⟩ : Doc)).countP
      (fun d => decide (summaryKey (⟨some "A", none, none, 3, none, none,
        some 0, none, 0⟩ : Doc) < summaryKey d)) = 0 ∧
    ((5, (⟨some "A", none, none, 3, none, none, some 0, none, 0⟩ : Doc)) :
        Nat × Doc).2.estimated_gdp = some 0 ∧
    ((5, (⟨some "A", none, none, 3, none, none, some 0, none, 0⟩ : Doc)) :
        Nat × Doc) ∉
      summaryTop5 (List.replicate 6
        ⟨some "A", none, none, 3, none, none, some 0, none, 0⟩) := by
  decide

/-- C9 (amended): the top-5 selection excludes exactly the records whose
`estimated_gdp` is null (zero-GDP records are eligible), and an eligible
record appears in the rendered top-5 iff fewer than five eligible records
precede it in the stable descending order — strictly larger GDP, or equal
GDP and earlier position. -/
theorem C9_top5_eligibility (l : List Doc) (p : Nat × Doc)
    (hp : p ∈ l.enum) (helig : p.2.estimated_gdp.isSome = true) :
    (p ∈ summaryTop5 l ↔
      (l.enum.filter (fun q => q.2.estimated_gdp.isSome)).countP
        (fun q => decide (strictBefore q p)) < 5) ∧
    ∀ q ∈ summaryTop5 l, q.2.estimated_gdp.isSome = true := by
  refine ⟨mem_take_insertionSort_iff 5 hp helig, ?_⟩
  intro q hq
  have hqS : q ∈ List.insertionSort summaryLE
      (l.enum.filter (fun x => x.2.estimated_gdp.isSome)) :=
    List.take_subset _ _ hq
  exact (List.mem_filter.1
    ((List.perm_insertionSort _ _).mem_iff.1 hqS)).2

/-- C9 witness: a two-record list, one null-GDP record excluded and the
eligible first record appearing. -/
theorem C9_witness :
    (((0, (⟨some "X", none, none, 2, none, none, some 5, none, 0⟩ : Doc)) :
        Nat × Doc) ∈ summaryTop5
        [⟨some "X", none, none, 2, none, none, some 5, none, 0⟩,
         ⟨some "Y", none, none, 1, none, none, none, none, 0⟩] ↔
      (([⟨some "X", none, none, 2, none, none, some 5, none, 0⟩,
         ⟨some "Y", none, none, 1, none, none, none, none, 0⟩] :
          List Doc).enum.filter (fun q => q.2.estimated_gdp.isSome)).countP
        (fun q => decide (strictBefore q
          (0, ⟨some "X", none, none, 2, none, none, some 5, none, 0⟩))) < 5) ∧
    ∀ q ∈ summaryTop5
        [⟨some "X", none, none, 2, none, none, some 5, none, 0⟩,
         ⟨some "Y", none, none, 1, none, none, none, none, 0⟩],
      q.2.estimated_gdp.isSome = true :=
  C9_top5_eligibility
    [⟨some "X", none, none, 2, none, none, some 5, none, 0⟩,
     ⟨some "Y", none, none, 1, none, none, none, none, 0⟩]
    (0, ⟨some "X", none, none, 2, none, none, some 5, none, 0⟩)
    (by decide) (by decide)

end CountryApi
